import Mathlib

/-!
# Verification of the trading-bot analysis core

A shallow embedding, over `ℚ` for JavaScript numbers and `String` for
JavaScript strings, of the pure analysis functions of the repository:

* `calculateMovingAverages` from `src/utils/dataProcessing.js`;
* `calculateRSI`, `calculateEMA`, `clusterLevels` from the Binance
  exchange module (`src/unnamed/part_000`);
* `detectEngulfingPatterns` from `src/analysis/volume.js`;
* `determineTradeDirection`, `calculateConfidence`, `determineEntryPoints`,
  `determineTakeProfitTargets`, `determineStopLoss`, `calculateLeverage` and
  `generateTradeRecommendation` from the signal aggregator
  (`src/unnamed/part_002`).

JavaScript `null`/`undefined` markers for indicator values are embedded as
`Option ℚ`.  Impure observability fields of the aggregator's output
(`Date.now()` timestamps, the free-text `reasoning` list and the three
`summarize*` projections) are outside the embedding; every field that any
stated property constrains is modelled.
-/

namespace TradingBot

/-- JavaScript `Array.prototype.reduce` style sum is `List.sum`; this is the
character-list core of `String.prototype.includes`: does the second list
occur as a contiguous run starting at the head of the first? -/
def charsLeadWith : List Char → List Char → Bool
  | _, [] => true
  | [], _ :: _ => false
  | a :: as, b :: bs => a == b && charsLeadWith as bs

/-- Does `pat` occur contiguously anywhere in `s`?  (Arguments are character
lists; the run may start at any position.) -/
def charsContain (s pat : List Char) : Bool :=
  match s with
  | [] => pat.isEmpty
  | _ :: rest => charsLeadWith s pat || charsContain rest pat

/-- JavaScript `s.includes(pat)`: substring containment on strings. -/
def strIncludes (s pat : String) : Bool :=
  charsContain s.data pat.data

/-! ## `src/utils/dataProcessing.js` -/

/-- `calculateMovingAverages(data, period)` (`src/utils/dataProcessing.js`,
lines 11-25): simple moving average; `null` for indices with fewer than
`period` samples ending at them, else the mean of `data.slice(i-period+1, i+1)`. -/
def calculateMovingAverages (data : List ℚ) (period : ℕ) : List (Option ℚ) :=
  (List.range data.length).map fun i =>
    if i < period - 1 then none
    else some (((data.drop (i + 1 - period)).take period).sum / (period : ℚ))

/-! ## Indicators of the Binance module (`src/unnamed/part_000`) -/

/-- The inner loop of `calculateEMA`: from the previous EMA value `prev` and
multiplier `m`, each price `p` contributes `(p - prev) * m + prev`. -/
def emaLoop (m : ℚ) (prev : ℚ) : List ℚ → List ℚ
  | [] => []
  | p :: rest =>
    let nxt := (p - prev) * m + prev
    nxt :: emaLoop m nxt rest

/-- `calculateEMA(prices, period)` (`src/unnamed/part_000`, lines 314-329):
seeded with the SMA of the first `period` prices, then the exponential
recurrence with multiplier `2/(period+1)`; the front is padded with
`period - 1` `null`s. -/
def calculateEMA (prices : List ℚ) (period : ℕ) : List (Option ℚ) :=
  let multiplier : ℚ := 2 / ((period : ℚ) + 1)
  let sma := (prices.take period).sum / (period : ℚ)
  List.replicate (period - 1) none ++
    (sma :: emaLoop multiplier sma (prices.drop period)).map some

/-- The consecutive price changes `prices[i+1] - prices[i]`. -/
def priceDeltas (prices : List ℚ) : List ℚ :=
  List.zipWith (fun a b => b - a) prices prices.tail

/-- The per-delta gains of `calculateRSI`: `d` if positive else `0`. -/
def gainsOf (deltas : List ℚ) : List ℚ :=
  deltas.map fun d => if d > 0 then d else 0

/-- The per-delta losses of `calculateRSI`: `|d|` if `d` negative else `0`. -/
def lossesOf (deltas : List ℚ) : List ℚ :=
  deltas.map fun d => if d < 0 then |d| else 0

/-- One RSI reading from the running averages: `100` when the average loss is
zero, else `100 - 100/(1 + avgGain/avgLoss)`. -/
def rsiValue (avgGain avgLoss : ℚ) : ℚ :=
  if avgLoss = 0 then 100 else 100 - 100 / (1 + avgGain / avgLoss)

/-- The Wilder-smoothing loop of `calculateRSI`: each remaining (gain, loss)
pair updates the running averages by `(avg*(period-1) + x)/period` and emits
one RSI reading. -/
def wilderRSI (period : ℕ) (avgGain avgLoss : ℚ) : List (ℚ × ℚ) → List (Option ℚ)
  | [] => []
  | gl :: rest =>
    let ag := (avgGain * ((period : ℚ) - 1) + gl.1) / (period : ℚ)
    let al := (avgLoss * ((period : ℚ) - 1) + gl.2) / (period : ℚ)
    some (rsiValue ag al) :: wilderRSI period ag al rest

/-- `calculateRSI(prices, period)` (`src/unnamed/part_000`, lines 221-267).
With fewer than `period + 1` prices the result is all `null`s; otherwise the
first `period` deltas seed the average gain/loss, a leading `null` and the
seeded reading are emitted, and the remaining deltas are Wilder-smoothed.
(As in the source, the output then has `prices.length - period + 1` entries.) -/
def calculateRSI (prices : List ℚ) (period : ℕ) : List (Option ℚ) :=
  if prices.length < period + 1 then List.replicate prices.length none
  else
    let deltas := priceDeltas prices
    let gains := gainsOf deltas
    let losses := lossesOf deltas
    let avgGain := (gains.take period).sum / (period : ℚ)
    let avgLoss := (losses.take period).sum / (period : ℚ)
    none :: some (rsiValue avgGain avgLoss) ::
      wilderRSI period avgGain avgLoss ((gains.drop period).zip (losses.drop period))

/-- The arithmetic mean of a list of values (`reduce`-sum divided by length),
the value a finished cluster of `clusterLevels` collapses to. -/
def mean (xs : List ℚ) : ℚ := xs.sum / (xs.length : ℚ)

/-- The clustering loop of `clusterLevels` (`src/unnamed/part_000`, lines
443-462).  `cur` is the running cluster, most recently added member first (the
source appends, so its `currentCluster[currentCluster.length-1]` is our head);
each next sorted level joins the cluster when its relative distance to that
member is below `threshold`, and otherwise the cluster collapses to its mean
and a new cluster starts. -/
def clusterLoop (threshold : ℚ) : List ℚ → List ℚ → List ℚ
  | cur, [] => [mean cur]
  | cur, l :: rest =>
    if (l - cur.headD 0) / cur.headD 0 < threshold then
      clusterLoop threshold (l :: cur) rest
    else
      mean cur :: clusterLoop threshold [l] rest

/-- `clusterLevels(levels, threshold)` (`src/unnamed/part_000`, lines
434-465): sort the extrema by value, then merge runs of relatively-close
levels and collapse each run to its mean.  The source's level records carry
an `index` field that `clusterLevels` never reads, so levels are embedded as
their values. -/
def clusterLevels (levels : List ℚ) (threshold : ℚ) : List ℚ :=
  match List.insertionSort (· ≤ ·) levels with
  | [] => []
  | l :: rest => clusterLoop threshold [l] rest

/-! ## Candle patterns (`src/analysis/volume.js`) -/

/-- One OHLCV candle (`open` is a Lean keyword, hence the trailing
underscore). -/
structure Candle where
  open_ : ℚ
  high : ℚ
  low : ℚ
  close : ℚ
  volume : ℚ

/-- The out-of-range placeholder for candle indexing (JavaScript indexing out
of range yields `undefined`; every index the detector uses in the loop below
is in range, see `detectEngulfingPatterns_eq_lastPairs`). -/
def dfltCandle : Candle := ⟨0, 0, 0, 0, 0⟩

/-- The bullish-engulfing test on one candle pair (`src/analysis/volume.js`,
lines 1003-1008): current bullish, previous bearish, current body strictly
containing the previous body. -/
def bullishEngulf (previous current : Candle) : Bool :=
  decide (current.close > current.open_) && decide (previous.close < previous.open_) &&
    decide (current.open_ < previous.close) && decide (current.close > previous.open_)

/-- The bearish-engulfing test on one candle pair (`src/analysis/volume.js`,
lines 1011-1016). -/
def bearishEngulf (previous current : Candle) : Bool :=
  decide (current.close < current.open_) && decide (previous.close > previous.open_) &&
    decide (current.open_ > previous.close) && decide (current.close < previous.open_)

/-- `detectEngulfingPatterns(klines)` (`src/analysis/volume.js`, lines
992-1019): scan offsets `i = 1, ..., min(5, klines.length) - 1` from the end,
pairing candle `klines[n-i]` with `klines[n-i-1]`; the first component is the
bullish flag, the second the bearish flag. -/
def detectEngulfingPatterns (klines : List Candle) : Bool × Bool :=
  let n := klines.length
  let offsets := List.range' 1 (min 5 n - 1)
  (offsets.any fun i =>
     bullishEngulf (klines.getD (n - i - 1) dfltCandle) (klines.getD (n - i) dfltCandle),
   offsets.any fun i =>
     bearishEngulf (klines.getD (n - i - 1) dfltCandle) (klines.getD (n - i) dfltCandle))

/-- The claim's reading of the scan, stated from the spec's words for
comparison with `detectEngulfingPatterns`: some pair among the last `k`
candle pairs (`j = 0` the final pair `(klines[n-2], klines[n-1])`, and so on)
satisfies the two-candle test `f previous current`. -/
def lastPairsAny (k : ℕ) (f : Candle → Candle → Bool) (klines : List Candle) : Bool :=
  (List.range (min k (klines.length - 1))).any fun j =>
    f (klines.getD (klines.length - 2 - j) dfltCandle)
      (klines.getD (klines.length - 1 - j) dfltCandle)

/-! ## The signal aggregator's input records (`src/unnamed/part_002`)

Each structure holds exactly the fields the aggregator reads from the
corresponding analysis record. -/

structure TrendStrength where
  direction : String
  strength : String

structure MovingAveragesView where
  maTrend : String

structure MomentumView where
  overallMomentum : String

structure OscillatorsView where
  consensus : String

structure PatternsView where
  patternSignal : String

/-- `structure` is a Lean keyword, hence the trailing underscore on the
source's `marketStructure.structure` field. -/
structure MarketStructureView where
  structure_ : String

structure SupportResistanceLevels where
  support : List ℚ
  resistance : List ℚ

/-- `nearestSupport`/`nearestResistance` are `none` when the source holds a
nullish value (the falsiness of a literal price `0` is not distinguished). -/
structure SupportResistanceView where
  currentPrice : ℚ
  nearestSupport : Option ℚ
  nearestResistance : Option ℚ
  levels : SupportResistanceLevels

structure VolatilityView where
  level : String

structure TechnicalAnalysis where
  trendStrength : TrendStrength
  movingAverages : MovingAveragesView
  momentum : MomentumView
  oscillators : OscillatorsView
  patterns : PatternsView
  marketStructure : MarketStructureView
  supportResistance : SupportResistanceView
  volatility : VolatilityView

structure OverallSentiment where
  classification : String

structure SocialSentiment where
  sentiment : String

structure NewsSentiment where
  sentiment : String

structure FearGreedIndex where
  classification : String

structure SentimentAnalysis where
  overallSentiment : OverallSentiment
  social : SocialSentiment
  news : NewsSentiment
  fearGreedIndex : FearGreedIndex

structure VolumeTrends where
  classification : String

structure BuySellRatio where
  pressureClassification : String

structure VolumeAtPrice where
  volumeWallClassification : String

structure VolumeAnalysis where
  volumeTrends : VolumeTrends
  buySellRatio : BuySellRatio
  volumeAtPrice : VolumeAtPrice

/-! ## Vote counting (`determineTradeDirection`, lines 80-157) -/

/-- The six technical bullish votes (trend direction, MA trend, momentum,
oscillator consensus, pattern signal, market structure). -/
def technicalBullishCount (ta : TechnicalAnalysis) : ℕ :=
  (if ta.trendStrength.direction = "bullish" then 1 else 0) +
  (if strIncludes ta.movingAverages.maTrend "bullish" then 1 else 0) +
  (if strIncludes ta.momentum.overallMomentum "bullish" then 1 else 0) +
  (if ta.oscillators.consensus = "bullish" then 1 else 0) +
  (if ta.patterns.patternSignal = "bullish" then 1 else 0) +
  (if ta.marketStructure.structure_ = "uptrend" then 1 else 0)

/-- The six technical bearish votes. -/
def technicalBearishCount (ta : TechnicalAnalysis) : ℕ :=
  (if ta.trendStrength.direction = "bearish" then 1 else 0) +
  (if strIncludes ta.movingAverages.maTrend "bearish" then 1 else 0) +
  (if strIncludes ta.momentum.overallMomentum "bearish" then 1 else 0) +
  (if ta.oscillators.consensus = "bearish" then 1 else 0) +
  (if ta.patterns.patternSignal = "bearish" then 1 else 0) +
  (if ta.marketStructure.structure_ = "downtrend" then 1 else 0)

/-- The four sentiment bullish votes (overall, social, news, extreme greed). -/
def sentimentBullishCount (sa : SentimentAnalysis) : ℕ :=
  (if strIncludes sa.overallSentiment.classification "bullish" then 1 else 0) +
  (if strIncludes sa.social.sentiment "bullish" then 1 else 0) +
  (if strIncludes sa.news.sentiment "bullish" then 1 else 0) +
  (if sa.fearGreedIndex.classification = "extreme greed" then 1 else 0)

/-- The four sentiment bearish votes (overall, social, news, extreme fear). -/
def sentimentBearishCount (sa : SentimentAnalysis) : ℕ :=
  (if strIncludes sa.overallSentiment.classification "bearish" then 1 else 0) +
  (if strIncludes sa.social.sentiment "bearish" then 1 else 0) +
  (if strIncludes sa.news.sentiment "bearish" then 1 else 0) +
  (if sa.fearGreedIndex.classification = "extreme fear" then 1 else 0)

/-- The three volume bullish votes (trend increasing, buying pressure, strong
support wall). -/
def volumeBullishCount (va : VolumeAnalysis) : ℕ :=
  (if va.volumeTrends.classification = "increasing" then 1 else 0) +
  (if va.buySellRatio.pressureClassification = "buying" then 1 else 0) +
  (if va.volumeAtPrice.volumeWallClassification = "strong support" then 1 else 0)

/-- The three volume bearish votes (trend decreasing, selling pressure, strong
resistance wall). -/
def volumeBearishCount (va : VolumeAnalysis) : ℕ :=
  (if va.volumeTrends.classification = "decreasing" then 1 else 0) +
  (if va.buySellRatio.pressureClassification = "selling" then 1 else 0) +
  (if va.volumeAtPrice.volumeWallClassification = "strong resistance" then 1 else 0)

/-- `totalBullish` of `determineTradeDirection`. -/
def totalBullishVotes (ta : TechnicalAnalysis) (sa : SentimentAnalysis)
    (va : VolumeAnalysis) : ℕ :=
  technicalBullishCount ta + sentimentBullishCount sa + volumeBullishCount va

/-- `totalBearish` of `determineTradeDirection`. -/
def totalBearishVotes (ta : TechnicalAnalysis) (sa : SentimentAnalysis)
    (va : VolumeAnalysis) : ℕ :=
  technicalBearishCount ta + sentimentBearishCount sa + volumeBearishCount va

/-- `determineTradeDirection` (`src/unnamed/part_002`, lines 80-157): "long"
when the bullish votes beat the bearish ones by at least 3, "short" in the
mirror case, else "neutral". -/
def determineTradeDirection (ta : TechnicalAnalysis) (sa : SentimentAnalysis)
    (va : VolumeAnalysis) : String :=
  let totalBullish := totalBullishVotes ta sa va
  let totalBearish := totalBearishVotes ta sa va
  if totalBullish > totalBearish ∧ totalBullish - totalBearish ≥ 3 then "long"
  else if totalBearish > totalBullish ∧ totalBearish - totalBullish ≥ 3 then "short"
  else "neutral"

/-! ## Confidence (`calculateConfidence`, lines 162-222) -/

/-- The `confidenceScore` accumulator of `calculateConfidence`, written as the
sum of its six independent contributions (trend strength, momentum, moving
averages, overall sentiment, buy/sell pressure, volume wall). -/
def confidenceScore (ta : TechnicalAnalysis) (sa : SentimentAnalysis)
    (va : VolumeAnalysis) (direction : String) : ℕ :=
  (if ta.trendStrength.strength = "strong" ∧
      ta.trendStrength.direction = (if direction = "long" then "bullish" else "bearish")
   then 2
   else if ta.trendStrength.strength = "moderate" ∧
      ta.trendStrength.direction = (if direction = "long" then "bullish" else "bearish")
   then 1 else 0) +
  (if strIncludes ta.momentum.overallMomentum "strongly" ∧
      strIncludes ta.momentum.overallMomentum
        (if direction = "long" then "bullish" else "bearish")
   then 2
   else if ta.momentum.overallMomentum = (if direction = "long" then "bullish" else "bearish")
   then 1 else 0) +
  (if strIncludes ta.movingAverages.maTrend "strongly" ∧
      strIncludes ta.movingAverages.maTrend
        (if direction = "long" then "bullish" else "bearish")
   then 2
   else if ta.movingAverages.maTrend = (if direction = "long" then "bullish" else "bearish")
   then 1 else 0) +
  (if strIncludes sa.overallSentiment.classification "very" ∧
      strIncludes sa.overallSentiment.classification
        (if direction = "long" then "bullish" else "bearish")
   then 2
   else if sa.overallSentiment.classification =
      (if direction = "long" then "bullish" else "bearish")
   then 1 else 0) +
  (if va.buySellRatio.pressureClassification =
      (if direction = "long" then "buying" else "selling")
   then 1 else 0) +
  (if va.volumeAtPrice.volumeWallClassification =
      (if direction = "long" then "strong support" else "strong resistance")
   then 1 else 0)

/-- `calculateConfidence` (`src/unnamed/part_002`, lines 162-222): the score
mapped to the four confidence labels. -/
def calculateConfidence (ta : TechnicalAnalysis) (sa : SentimentAnalysis)
    (va : VolumeAnalysis) (direction : String) : String :=
  let score := confidenceScore ta sa va direction
  if score ≥ 7 then "very high"
  else if score ≥ 5 then "high"
  else if score ≥ 3 then "moderate"
  else "low"

/-! ## Plan synthesis (`src/unnamed/part_002`, lines 227-543) -/

/-- One entry of the plan (`type` is a Lean keyword, hence `type_`). -/
structure Entry where
  price : ℚ
  type_ : String
  allocation : ℚ
  reason : String

structure TakeProfitTarget where
  price : ℚ
  allocation : ℚ
  percentageGain : ℚ
  reason : String

structure StopLoss where
  price : ℚ
  percentageLoss : ℚ
  reason : String

structure Leverage where
  recommended : ℤ
  riskLevel : String
  reason : String

/-- `determineEntryPoints` (`src/unnamed/part_002`, lines 227-300): a market
entry at the current price (40%), a limit entry at the nearest
support/resistance when present (30%), and a limit entry at the second level
of the matching ladder when it exists (30%).  Unknown directions yield no
entries, as in the source. -/
def determineEntryPoints (ta : TechnicalAnalysis) (direction : String) : List Entry :=
  let currentPrice := ta.supportResistance.currentPrice
  if direction = "long" then
    { price := currentPrice, type_ := "market", allocation := 0.4,
      reason := "Immediate market entry" } ::
    ((match ta.supportResistance.nearestSupport with
      | some supportPrice =>
        [{ price := supportPrice, type_ := "limit", allocation := 0.3,
           reason := "Entry at nearest support level" }]
      | none => []) ++
     (match ta.supportResistance.levels.support with
      | _ :: lowerSupport :: _ =>
        [{ price := lowerSupport, type_ := "limit", allocation := 0.3,
           reason := "Entry at secondary support level" }]
      | _ => []))
  else if direction = "short" then
    { price := currentPrice, type_ := "market", allocation := 0.4,
      reason := "Immediate market entry" } ::
    ((match ta.supportResistance.nearestResistance with
      | some resistancePrice =>
        [{ price := resistancePrice, type_ := "limit", allocation := 0.3,
           reason := "Entry at nearest resistance level" }]
      | none => []) ++
     (match ta.supportResistance.levels.resistance with
      | _ :: higherResistance :: _ =>
        [{ price := higherResistance, type_ := "limit", allocation := 0.3,
           reason := "Entry at secondary resistance level" }]
      | _ => []))
  else []

/-- `determineTakeProfitTargets` (`src/unnamed/part_002`, lines 305-442),
with the source's push sequence written as a match on the level ladder: with
no levels a fixed 3%/5%/10% ladder (30/30/40), with one level that level
(30%) plus a projected 10% target (40%), with two or more the first two
levels (30/30) plus either the third level or the projected target (40%). -/
def determineTakeProfitTargets (ta : TechnicalAnalysis) (direction : String) :
    List TakeProfitTarget :=
  let currentPrice := ta.supportResistance.currentPrice
  if direction = "long" then
    match ta.supportResistance.levels.resistance with
    | [] =>
      [{ price := currentPrice * 1.03, allocation := 0.3, percentageGain := 3,
         reason := "First take profit at 3% gain" },
       { price := currentPrice * 1.05, allocation := 0.3, percentageGain := 5,
         reason := "Second take profit at 5% gain" },
       { price := currentPrice * 1.1, allocation := 0.4, percentageGain := 10,
         reason := "Final take profit at 10% gain" }]
    | [r0] =>
      [{ price := r0, allocation := 0.3,
         percentageGain := (r0 - currentPrice) / currentPrice * 100,
         reason := "First take profit at nearest resistance" },
       { price := currentPrice * 1.1, allocation := 0.4, percentageGain := 10,
         reason := "Final take profit at projected target" }]
    | [r0, r1] =>
      [{ price := r0, allocation := 0.3,
         percentageGain := (r0 - currentPrice) / currentPrice * 100,
         reason := "First take profit at nearest resistance" },
       { price := r1, allocation := 0.3,
         percentageGain := (r1 - currentPrice) / currentPrice * 100,
         reason := "Second take profit at higher resistance" },
       { price := currentPrice * 1.1, allocation := 0.4, percentageGain := 10,
         reason := "Final take profit at projected target" }]
    | r0 :: r1 :: r2 :: _ =>
      [{ price := r0, allocation := 0.3,
         percentageGain := (r0 - currentPrice) / currentPrice * 100,
         reason := "First take profit at nearest resistance" },
       { price := r1, allocation := 0.3,
         percentageGain := (r1 - currentPrice) / currentPrice * 100,
         reason := "Second take profit at higher resistance" },
       { price := r2, allocation := 0.4,
         percentageGain := (r2 - currentPrice) / currentPrice * 100,
         reason := "Final take profit at major resistance" }]
  else if direction = "short" then
    match ta.supportResistance.levels.support with
    | [] =>
      [{ price := currentPrice * 0.97, allocation := 0.3, percentageGain := 3,
         reason := "First take profit at 3% gain" },
       { price := currentPrice * 0.95, allocation := 0.3, percentageGain := 5,
         reason := "Second take profit at 5% gain" },
       { price := currentPrice * 0.9, allocation := 0.4, percentageGain := 10,
         reason := "Final take profit at 10% gain" }]
    | [s0] =>
      [{ price := s0, allocation := 0.3,
         percentageGain := (currentPrice - s0) / currentPrice * 100,
         reason := "First take profit at nearest support" },
       { price := currentPrice * 0.9, allocation := 0.4, percentageGain := 10,
         reason := "Final take profit at projected target" }]
    | [s0, s1] =>
      [{ price := s0, allocation := 0.3,
         percentageGain := (currentPrice - s0) / currentPrice * 100,
         reason := "First take profit at nearest support" },
       { price := s1, allocation := 0.3,
         percentageGain := (currentPrice - s1) / currentPrice * 100,
         reason := "Second take profit at lower support" },
       { price := currentPrice * 0.9, allocation := 0.4, percentageGain := 10,
         reason := "Final take profit at projected target" }]
    | s0 :: s1 :: s2 :: _ =>
      [{ price := s0, allocation := 0.3,
         percentageGain := (currentPrice - s0) / currentPrice * 100,
         reason := "First take profit at nearest support" },
       { price := s1, allocation := 0.3,
         percentageGain := (currentPrice - s1) / currentPrice * 100,
         reason := "Second take profit at lower support" },
       { price := s2, allocation := 0.4,
         percentageGain := (currentPrice - s2) / currentPrice * 100,
         reason := "Final take profit at major support" }]
  else []

/-- `determineStopLoss` (`src/unnamed/part_002`, lines 447-501).  `none`
mirrors the source's `undefined` for a direction that is neither "long" nor
"short".  `Math.min`/`Math.max` of the entry prices are taken with `List.min?`
and `List.max?`; their empty-list default `0` stands for the source's
`±Infinity`, which is unreachable from `generateTradeRecommendation` because
the entry list always starts with the market entry. -/
def determineStopLoss (ta : TechnicalAnalysis) (direction : String)
    (entries : List Entry) : Option StopLoss :=
  let currentPrice := ta.supportResistance.currentPrice
  if direction = "long" then
    match ta.supportResistance.nearestSupport with
    | some supportPrice =>
      let stopPrice := supportPrice * 0.98
      some { price := stopPrice,
             percentageLoss := (currentPrice - stopPrice) / currentPrice * 100,
             reason := "Stop loss placed below nearest support level" }
    | none =>
      let lowestEntry := ((entries.map (fun e => e.price)).min?).getD 0
      let stopPrice := lowestEntry * 0.95
      some { price := stopPrice,
             percentageLoss := (currentPrice - stopPrice) / currentPrice * 100,
             reason := "Stop loss placed 5% below lowest entry point" }
  else if direction = "short" then
    match ta.supportResistance.nearestResistance with
    | some resistancePrice =>
      let stopPrice := resistancePrice * 1.02
      some { price := stopPrice,
             percentageLoss := (stopPrice - currentPrice) / currentPrice * 100,
             reason := "Stop loss placed above nearest resistance level" }
    | none =>
      let highestEntry := ((entries.map (fun e => e.price)).max?).getD 0
      let stopPrice := highestEntry * 1.05
      some { price := stopPrice,
             percentageLoss := (stopPrice - currentPrice) / currentPrice * 100,
             reason := "Stop loss placed 5% above highest entry point" }
  else none

/-- The `baseLeverage` table of `calculateLeverage` (lines 508-516). -/
def baseLeverageOf (confidence : String) : ℚ :=
  if confidence = "very high" then 5
  else if confidence = "high" then 3
  else if confidence = "moderate" then 2
  else 1

/-- The `volatilityMultiplier` table of `calculateLeverage` (lines 519-525). -/
def volatilityMultiplierOf (level : String) : ℚ :=
  if level = "low" then 1.5
  else if level = "high" then 0.5
  else 1

/-- The rounded `finalLeverage` of `calculateLeverage` (line 528);
`Math.round` is `⌊x + 1/2⌋`, which is Mathlib's `round` on `ℚ`. -/
def finalLeverageOf (confidence : String) (level : String) : ℤ :=
  round (baseLeverageOf confidence * volatilityMultiplierOf level)

/-- `calculateLeverage` (`src/unnamed/part_002`, lines 506-543). -/
def calculateLeverage (confidence : String) (volatility : VolatilityView) : Leverage :=
  let finalLeverage := finalLeverageOf confidence volatility.level
  { recommended := finalLeverage,
    riskLevel :=
      if finalLeverage ≥ 4 then "high"
      else if finalLeverage ≤ 2 then "low"
      else "moderate",
    reason := "Leverage based on " ++ confidence ++ " confidence and " ++
      volatility.level ++ " volatility" }

/-- The aggregator's output: either a no-trade record (the neutral early
return and the error fallback both have this shape — symbol, recommendation,
confidence, reason) or a full trade plan.  The source's `Date.now()`
timestamps, `reasoning` strings and `summarize*` projections are observability
fields outside the embedding. -/
inductive Recommendation where
  | noTrade (symbol recommendation confidence reason : String)
  | trade (symbol recommendation confidence : String) (entries : List Entry)
      (takeProfitTargets : List TakeProfitTarget) (stopLoss : Option StopLoss)
      (leverage : Leverage)

/-- The `catch` branch of `generateTradeRecommendation` (lines 63-74): a
neutral low-confidence record surfacing the error message. -/
def neutralErrorFallback (symbol message : String) : Recommendation :=
  .noTrade symbol "neutral" "low" ("Error generating recommendation: " ++ message)

/-- The `try`/`catch` shell of `generateTradeRecommendation` (lines 12-74)
over an arbitrary synthesis outcome: a raised error (`Except.error`) becomes
the neutral fallback, a produced plan passes through. -/
def tryGenerateTradeRecommendation (symbol : String)
    (body : Except String Recommendation) : Recommendation :=
  match body with
  | .ok recommendation => recommendation
  | .error message => neutralErrorFallback symbol message

/-- `generateTradeRecommendation` (`src/unnamed/part_002`, lines 9-75): the
synthesis body.  On a "neutral" direction it returns at once with the fixed
no-trade record; otherwise it assembles confidence, entries, take-profit
targets, stop loss and leverage.  In the embedding every step is a total
function, so the body never raises and the `try`/`catch` shell
(`tryGenerateTradeRecommendation`) always takes its `ok` branch. -/
def generateTradeRecommendation (symbol : String) (ta : TechnicalAnalysis)
    (sa : SentimentAnalysis) (va : VolumeAnalysis) : Recommendation :=
  let direction := determineTradeDirection ta sa va
  if direction = "neutral" then
    .noTrade symbol "neutral" "low"
      "Conflicting signals or lack of clear direction in the market"
  else
    let confidence := calculateConfidence ta sa va direction
    let entries := determineEntryPoints ta direction
    let takeProfitTargets := determineTakeProfitTargets ta direction
    let stopLoss := determineStopLoss ta direction entries
    let leverage := calculateLeverage confidence ta.volatility
    .trade symbol direction confidence entries takeProfitTargets stopLoss leverage

/-- The sum of the allocation fractions of an entry list. -/
def allocationSum (entries : List Entry) : ℚ :=
  (entries.map (fun e => e.allocation)).sum

/-- The sum of the allocation fractions of a take-profit list. -/
def tpAllocationSum (targets : List TakeProfitTarget) : ℚ :=
  (targets.map (fun t => t.allocation)).sum

/-! ## Concrete analysis records used as test inputs -/

/-- A technical analysis with no support/resistance levels at all. -/
def noLevelsTA : TechnicalAnalysis :=
  ⟨⟨"neutral", "weak"⟩, ⟨"neutral"⟩, ⟨"neutral"⟩, ⟨"neutral"⟩, ⟨"none"⟩, ⟨"ranging"⟩,
   ⟨100, none, none, ⟨[], []⟩⟩, ⟨"moderate"⟩⟩

/-- Five bullish votes carried entirely by sub-classifications that earn no
confidence points (weak trend, oscillators, patterns, market structure,
volume trend), one bearish vote from extreme fear. -/
def fiveOneLowTA : TechnicalAnalysis :=
  ⟨⟨"bullish", "weak"⟩, ⟨"neutral"⟩, ⟨"neutral"⟩, ⟨"bullish"⟩, ⟨"bullish"⟩, ⟨"uptrend"⟩,
   ⟨100, none, none, ⟨[], []⟩⟩, ⟨"moderate"⟩⟩

def fiveOneLowSA : SentimentAnalysis :=
  ⟨⟨"neutral"⟩, ⟨"neutral"⟩, ⟨"neutral"⟩, ⟨"extreme fear"⟩⟩

def fiveOneLowVA : VolumeAnalysis :=
  ⟨⟨"increasing"⟩, ⟨"neutral"⟩, ⟨"none"⟩⟩

/-- Five bullish votes that include a strong trend and strongly bullish
momentum, one bearish vote from a decreasing volume trend. -/
def fiveOneStrongTA : TechnicalAnalysis :=
  ⟨⟨"bullish", "strong"⟩, ⟨"bullish"⟩, ⟨"strongly bullish"⟩, ⟨"bullish"⟩, ⟨"bullish"⟩,
   ⟨"ranging"⟩, ⟨100, none, none, ⟨[], []⟩⟩, ⟨"moderate"⟩⟩

def fiveOneStrongSA : SentimentAnalysis :=
  ⟨⟨"neutral"⟩, ⟨"neutral"⟩, ⟨"neutral"⟩, ⟨"neutral"⟩⟩

def fiveOneStrongVA : VolumeAnalysis :=
  ⟨⟨"decreasing"⟩, ⟨"neutral"⟩, ⟨"none"⟩⟩

/-- An all-neutral set of inputs (no votes at all). -/
def neutralTA : TechnicalAnalysis :=
  ⟨⟨"neutral", "weak"⟩, ⟨"neutral"⟩, ⟨"neutral"⟩, ⟨"neutral"⟩, ⟨"none"⟩, ⟨"ranging"⟩,
   ⟨100, none, none, ⟨[], []⟩⟩, ⟨"moderate"⟩⟩

def neutralSA : SentimentAnalysis := ⟨⟨"neutral"⟩, ⟨"neutral"⟩, ⟨"neutral"⟩, ⟨"neutral"⟩⟩

def neutralVA : VolumeAnalysis := ⟨⟨"stable"⟩, ⟨"neutral"⟩, ⟨"none"⟩⟩

/-- A technical analysis with two support and two resistance levels. -/
def twoLevelsTA : TechnicalAnalysis :=
  ⟨⟨"neutral", "weak"⟩, ⟨"neutral"⟩, ⟨"neutral"⟩, ⟨"neutral"⟩, ⟨"none"⟩, ⟨"ranging"⟩,
   ⟨100, some 95, some 105, ⟨[95, 90], [105, 110]⟩⟩, ⟨"moderate"⟩⟩

/-- Six candles whose fifth-from-last pair (and only that pair) is a bullish
engulfing: candle 0 is bearish (10 to 9), candle 1 opens at 8 below its close
and closes at 11 above its open, and the last four candles are dojis. -/
def sixKlines : List Candle :=
  [⟨10, 10, 9, 9, 1⟩, ⟨8, 11, 8, 11, 1⟩, ⟨11, 11, 11, 11, 1⟩,
   ⟨11, 11, 11, 11, 1⟩, ⟨11, 11, 11, 11, 1⟩, ⟨11, 11, 11, 11, 1⟩]

/-! ## C1: direction resolution and the neutral short-circuit -/

/-- C1.  For every combination of technical, sentiment and volume inputs the
aggregator resolves "long" iff the bullish votes beat the bearish ones by at
least 3 (as integers), "short" iff the mirror holds, and "neutral" otherwise;
and on "neutral" `generateTradeRecommendation` returns at once with the fixed
no-trade record, which carries no entries, take-profits, stop-loss or
leverage. -/
theorem determineTradeDirection_resolution (ta : TechnicalAnalysis)
    (sa : SentimentAnalysis) (va : VolumeAnalysis) (symbol : String) :
    (determineTradeDirection ta sa va = "long" ↔
      3 ≤ (totalBullishVotes ta sa va : ℤ) - (totalBearishVotes ta sa va : ℤ)) ∧
    (determineTradeDirection ta sa va = "short" ↔
      3 ≤ (totalBearishVotes ta sa va : ℤ) - (totalBullishVotes ta sa va : ℤ)) ∧
    (determineTradeDirection ta sa va = "neutral" ↔
      |(totalBullishVotes ta sa va : ℤ) - (totalBearishVotes ta sa va : ℤ)| < 3) ∧
    (determineTradeDirection ta sa va = "neutral" →
      generateTradeRecommendation symbol ta sa va =
        Recommendation.noTrade symbol "neutral" "low"
          "Conflicting signals or lack of clear direction in the market") := by
  have hdir : ∀ h : determineTradeDirection ta sa va = "neutral",
      generateTradeRecommendation symbol ta sa va =
        Recommendation.noTrade symbol "neutral" "low"
          "Conflicting signals or lack of clear direction in the market" := by
    intro h
    simp [generateTradeRecommendation, h]
  refine ⟨?_, ?_, ?_, hdir⟩ <;>
  · simp only [determineTradeDirection]
    split_ifs with h1 h2
    · first
        | exact iff_of_true rfl (by omega)
        | exact iff_of_false (by simp) (by omega)
        | exact iff_of_true rfl (by rw [abs_lt]; omega)
        | exact iff_of_false (by simp) (by rw [abs_lt]; omega)
    · first
        | exact iff_of_true rfl (by omega)
        | exact iff_of_false (by simp) (by omega)
        | exact iff_of_true rfl (by rw [abs_lt]; omega)
        | exact iff_of_false (by simp) (by rw [abs_lt]; omega)
    · first
        | exact iff_of_true rfl (by omega)
        | exact iff_of_false (by simp) (by omega)
        | exact iff_of_true rfl (by rw [abs_lt]; omega)
        | exact iff_of_false (by simp) (by rw [abs_lt]; omega)

/-! ## C3: the catch-all fallback -/

/-- C3.  The `try`/`catch` shell never propagates a raised error: an `ok`
outcome passes through unchanged and an `error` outcome becomes exactly the
fixed neutral fallback `{recommendation: "neutral", confidence: "low",
reason: "Error generating recommendation: " ++ message}`; and the embedded
synthesis body is a total function, returning a recommendation on every
input. -/
theorem tryGenerateTradeRecommendation_never_throws (symbol : String)
    (body : Except String Recommendation) :
    ((∃ r, body = .ok r ∧ tryGenerateTradeRecommendation symbol body = r) ∨
     (∃ e, body = .error e ∧ tryGenerateTradeRecommendation symbol body =
        Recommendation.noTrade symbol "neutral" "low"
          ("Error generating recommendation: " ++ e))) ∧
    ∀ (ta : TechnicalAnalysis) (sa : SentimentAnalysis) (va : VolumeAnalysis),
      ∃ rec, generateTradeRecommendation symbol ta sa va = rec := by
  constructor
  · cases body with
    | ok r => exact Or.inl ⟨r, rfl, rfl⟩
    | error e => exact Or.inr ⟨e, rfl, rfl⟩
  · exact fun ta sa va => ⟨_, rfl⟩

/-! ## C10: leverage range and risk label -/

/-- C10.  For every confidence label and volatility record the recommended
leverage is an integer between 1 and 8 inclusive — in particular never 0,
the low-confidence/high-volatility corner rounding `1 * 0.5` up to 1 — and
the attached risk level is one of "low", "moderate", "high". -/
theorem calculateLeverage_range (confidence : String) (volatility : VolatilityView) :
    1 ≤ (calculateLeverage confidence volatility).recommended ∧
    (calculateLeverage confidence volatility).recommended ≤ 8 ∧
    ((calculateLeverage confidence volatility).riskLevel = "low" ∨
     (calculateLeverage confidence volatility).riskLevel = "moderate" ∨
     (calculateLeverage confidence volatility).riskLevel = "high") := by
  have key : 1 ≤ finalLeverageOf confidence volatility.level ∧
      finalLeverageOf confidence volatility.level ≤ 8 := by
    unfold finalLeverageOf baseLeverageOf volatilityMultiplierOf
    split_ifs <;> norm_num [round_eq]
  refine ⟨key.1, key.2.trans_eq rfl, ?_⟩
  simp only [calculateLeverage]
  split_ifs <;> simp

/-! ## C2: allocation sums -/

/-- C2, amended.  The entry allocations sum to 1 exactly when the nearest
level on the entry side is present and that side's ladder has at least two
levels; the take-profit allocations sum to 1 whenever the profit side's
ladder does not have exactly one level.  (Stated with the claim's 10⁻⁶
slack; the sums are exact in `ℚ`.) -/
theorem allocation_sums (ta : TechnicalAnalysis) :
    ((ta.supportResistance.nearestSupport).isSome = true →
      2 ≤ ta.supportResistance.levels.support.length →
      |allocationSum (determineEntryPoints ta "long") - 1| ≤ 1/1000000) ∧
    ((ta.supportResistance.nearestResistance).isSome = true →
      2 ≤ ta.supportResistance.levels.resistance.length →
      |allocationSum (determineEntryPoints ta "short") - 1| ≤ 1/1000000) ∧
    (ta.supportResistance.levels.resistance.length ≠ 1 →
      |tpAllocationSum (determineTakeProfitTargets ta "long") - 1| ≤ 1/1000000) ∧
    (ta.supportResistance.levels.support.length ≠ 1 →
      |tpAllocationSum (determineTakeProfitTargets ta "short") - 1| ≤ 1/1000000) := by
  refine ⟨?_, ?_, ?_, ?_⟩
  · intro h1 h2
    obtain ⟨s, hs⟩ := Option.isSome_iff_exists.mp h1
    rcases hsup : ta.supportResistance.levels.support with _ | ⟨a, _ | ⟨b, tl⟩⟩ <;>
      rw [hsup] at h2 <;> simp at h2
    simp [determineEntryPoints, allocationSum, hs, hsup]
    norm_num
  · intro h1 h2
    obtain ⟨r, hr⟩ := Option.isSome_iff_exists.mp h1
    rcases hres : ta.supportResistance.levels.resistance with _ | ⟨a, _ | ⟨b, tl⟩⟩ <;>
      rw [hres] at h2 <;> simp at h2
    simp [determineEntryPoints, allocationSum, hr, hres]
    norm_num
  · intro h1
    rcases hres : ta.supportResistance.levels.resistance with _ | ⟨a, tl0⟩
    · simp [determineTakeProfitTargets, tpAllocationSum, hres]
      norm_num
    · rcases tl0 with _ | ⟨b, tl1⟩
      · exact absurd (by rw [hres]; rfl) h1
      · rcases tl1 with _ | ⟨c, tl2⟩ <;>
        · simp [determineTakeProfitTargets, tpAllocationSum, hres]
          norm_num
  · intro h1
    rcases hsup : ta.supportResistance.levels.support with _ | ⟨a, tl0⟩
    · simp [determineTakeProfitTargets, tpAllocationSum, hsup]
      norm_num
    · rcases tl0 with _ | ⟨b, tl1⟩
      · exact absurd (by rw [hsup]; rfl) h1
      · rcases tl1 with _ | ⟨c, tl2⟩ <;>
        · simp [determineTakeProfitTargets, tpAllocationSum, hsup]
          norm_num

/-- C2, counterexample to the claim as stated: with no support levels at all
the long entry list is the lone market entry and its allocations sum to 0.4,
not 1 (±10⁻⁶). -/
theorem allocation_sums_cex :
    allocationSum (determineEntryPoints noLevelsTA "long") = 2/5 ∧
    ¬ |allocationSum (determineEntryPoints noLevelsTA "long") - 1| ≤ 1/1000000 := by
  have h : allocationSum (determineEntryPoints noLevelsTA "long") = 2/5 := by
    simp [determineEntryPoints, allocationSum, noLevelsTA]
    norm_num
  exact ⟨h, by rw [h]; norm_num [abs_le]⟩

/-! ## C4: five bullish votes against one bearish -/

/-- C4, amended.  Whenever the analyses produce exactly 5 bullish and 1
bearish vote the direction resolves to "long", for every distribution of the
votes; the confidence, however, depends on which sub-classifications carry
the votes — it is at least "moderate" when, for instance, the bullish votes
include a strong bullish trend and strongly bullish momentum. -/
theorem fiveOneVotes_long (ta : TechnicalAnalysis) (sa : SentimentAnalysis)
    (va : VolumeAnalysis) (h5 : totalBullishVotes ta sa va = 5)
    (h1 : totalBearishVotes ta sa va = 1) :
    determineTradeDirection ta sa va = "long" ∧
    (ta.trendStrength.strength = "strong" → ta.trendStrength.direction = "bullish" →
      ta.momentum.overallMomentum = "strongly bullish" →
      (calculateConfidence ta sa va "long" = "moderate" ∨
       calculateConfidence ta sa va "long" = "high" ∨
       calculateConfidence ta sa va "long" = "very high")) := by
  constructor
  · simp only [determineTradeDirection, h5, h1]
    norm_num
  · intro hst hdir hmom
    have e1 : strIncludes "strongly bullish" "strongly" = true := by decide
    have e2 : strIncludes "strongly bullish" "bullish" = true := by decide
    have hs : 4 ≤ confidenceScore ta sa va "long" := by
      simp only [confidenceScore, hst, hdir, hmom, e1, e2]
      simp
      split_ifs <;> omega
    simp only [calculateConfidence]
    split_ifs with ha hb hc
    · exact Or.inr (Or.inr rfl)
    · exact Or.inr (Or.inl rfl)
    · exact Or.inl rfl
    · omega

/-- C4, witness for the amended statement at a concrete distribution. -/
theorem fiveOneVotes_long_witness :
    totalBullishVotes fiveOneStrongTA fiveOneStrongSA fiveOneStrongVA = 5 ∧
    determineTradeDirection fiveOneStrongTA fiveOneStrongSA fiveOneStrongVA = "long" :=
  ⟨by decide,
   (fiveOneVotes_long fiveOneStrongTA fiveOneStrongSA fiveOneStrongVA
      (by decide) (by decide)).1⟩

/-- C4, counterexample to the claim as stated: a distribution of 5 bullish
votes and 1 bearish vote whose confidence is "low", below "moderate". -/
theorem fiveOneVotes_low_confidence_cex :
    totalBullishVotes fiveOneLowTA fiveOneLowSA fiveOneLowVA = 5 ∧
    totalBearishVotes fiveOneLowTA fiveOneLowSA fiveOneLowVA = 1 ∧
    determineTradeDirection fiveOneLowTA fiveOneLowSA fiveOneLowVA = "long" ∧
    calculateConfidence fiveOneLowTA fiveOneLowSA fiveOneLowVA "long" = "low" := by
  refine ⟨by decide, by decide, by decide, by decide⟩

/-! ## C9: engulfing patterns -/

lemma list_any_congr {α : Type} (p q : α → Bool) :
    ∀ l : List α, (∀ a ∈ l, p a = q a) → l.any p = l.any q := by
  intro l h
  induction l with
  | nil => rfl
  | cons a as ih =>
    simp only [List.any_cons, h a (by simp), ih fun x hx => h x (by simp [hx])]

lemma range'_one_any (f : ℕ → Bool) (len : ℕ) :
    (List.range' 1 len).any f = (List.range len).any fun j => f (1 + j) := by
  rw [List.range'_eq_map_range, List.any_map]
  rfl

/-- C9, amended.  The detector's flags coincide, for every input, with "some
pair among the last 4 candle pairs (the pairs formed by the last 5 candles)
is engulfing": the source loop runs `i = 1, ..., min(5, n) - 1` and therefore
inspects 4 pairs, not 5. -/
theorem detectEngulfingPatterns_eq_lastPairs (klines : List Candle) :
    (detectEngulfingPatterns klines).1 = lastPairsAny 4 bullishEngulf klines ∧
    (detectEngulfingPatterns klines).2 = lastPairsAny 4 bearishEngulf klines := by
  have hmin : min 5 klines.length - 1 = min 4 (klines.length - 1) := by omega
  constructor <;>
  · simp only [detectEngulfingPatterns, lastPairsAny, hmin]
    rw [range'_one_any]
    refine list_any_congr _ _ _ fun j hj => ?_
    have h1 : klines.length - (1 + j) - 1 = klines.length - 2 - j := by omega
    have h2 : klines.length - (1 + j) = klines.length - 1 - j := by omega
    have h3 : klines.length - 1 - j - 1 = klines.length - 2 - j := by omega
    simp only [h1, h2, h3]

/-- C9, counterexample to the claim as stated: on `sixKlines` the only
bullish-engulfing pair is the fifth from the end, which the claim's
last-5-pairs reading reports but the code does not. -/
theorem detectEngulfingPatterns_cex :
    (detectEngulfingPatterns sixKlines).1 = false ∧
    lastPairsAny 5 bullishEngulf sixKlines = true := by
  constructor <;> decide

/-! ## C7: short history leaves every indicator undefined -/

/-- C7.  When the period exceeds the series length, SMA, EMA and RSI are
undefined (`none`) at every index of the input, and each function still
returns a list (the embedded functions are total, mirroring that the source
never throws on short input; the SMA and RSI lists keep the input's length). -/
theorem indicators_undefined_short_history (prices : List ℚ) (k : ℕ)
    (h : prices.length < k) :
    (∀ i < prices.length, (calculateMovingAverages prices k)[i]? = some none) ∧
    (∀ i < prices.length, (calculateEMA prices k)[i]? = some none) ∧
    (∀ i < prices.length, (calculateRSI prices k)[i]? = some none) ∧
    (calculateMovingAverages prices k).length = prices.length ∧
    (calculateRSI prices k).length = prices.length := by
  refine ⟨?_, ?_, ?_, ?_, ?_⟩
  · intro i hi
    simp only [calculateMovingAverages]
    rw [List.getElem?_map, List.getElem?_range hi]
    simp only [Option.map_some']
    rw [if_pos (by omega)]
  · intro i hi
    simp only [calculateEMA]
    rw [List.getElem?_append_left (by simp; omega), List.getElem?_replicate,
      if_pos (by omega)]
  · intro i hi
    simp only [calculateRSI]
    rw [if_pos (by omega), List.getElem?_replicate, if_pos hi]
  · simp [calculateMovingAverages]
  · simp only [calculateRSI]
    rw [if_pos (by omega : prices.length < k + 1)]
    simp

/-- C7, witness: a 3-price series with period 5. -/
theorem indicators_undefined_short_history_witness :
    ([(1:ℚ), 2, 3]).length < 5 ∧ (calculateMovingAverages [1, 2, 3] 5)[0]? = some none :=
  ⟨by norm_num,
   (indicators_undefined_short_history [1, 2, 3] 5 (by norm_num)).1 0 (by norm_num)⟩

/-! ## C8: constant series -/

lemma emaLoop_replicate (m c : ℚ) : ∀ j, emaLoop m c (List.replicate j c) = List.replicate j c := by
  intro j
  induction j with
  | zero => rfl
  | succ n ih =>
    have hc : (c - c) * m + c = c := by ring
    simp only [List.replicate_succ, emaLoop, hc, ih]

lemma replicate_window_sum (c : ℚ) (k w : ℕ) (hk : 1 ≤ k) (hw : k ≤ w) :
    ((List.replicate w c).take k).sum / (k : ℚ) = c := by
  rw [List.take_replicate, show min k w = k from by omega, List.sum_replicate,
    nsmul_eq_mul, mul_div_cancel_left₀ c (by exact_mod_cast (by omega : k ≠ 0))]

/-- C8.  On a constant series every defined SMA and EMA value equals the
constant (for any positive period not exceeding the length), and in
particular the SMA of `[10,10,10,10,10]` with period 3 is
`[undefined, undefined, 10, 10, 10]`. -/
theorem constant_series_sma_ema (c : ℚ) (n k : ℕ) (hk : 1 ≤ k) (hkn : k ≤ n) :
    (∀ o ∈ calculateMovingAverages (List.replicate n c) k, ∀ v, o = some v → v = c) ∧
    (∀ o ∈ calculateEMA (List.replicate n c) k, ∀ v, o = some v → v = c) ∧
    calculateMovingAverages [10, 10, 10, 10, 10] 3 =
      [none, none, some 10, some 10, some 10] := by
  refine ⟨?_, ?_, ?_⟩
  · intro o ho v hv
    simp only [calculateMovingAverages, List.mem_map, List.mem_range,
      List.length_replicate] at ho
    obtain ⟨i, hi, rfl⟩ := ho
    by_cases hik : i < k - 1
    · rw [if_pos hik] at hv
      exact absurd hv (by simp)
    · rw [if_neg hik, List.drop_replicate] at hv
      rw [show (List.replicate (n - (i + 1 - k)) c).take k = List.replicate k c from by
        rw [List.take_replicate]; congr 1; omega] at hv
      rw [List.sum_replicate, nsmul_eq_mul,
        mul_div_cancel_left₀ c (by exact_mod_cast (by omega : k ≠ 0))] at hv
      exact (Option.some.inj hv).symm
  · intro o ho v hv
    simp only [calculateEMA, List.mem_append, List.mem_replicate, List.mem_map] at ho
    rcases ho with ⟨-, rfl⟩ | ⟨w, hw, rfl⟩
    · exact absurd hv (by simp)
    · rw [replicate_window_sum c k n hk hkn, List.drop_replicate,
        emaLoop_replicate] at hw
      have hwc : w = c := by
        rcases List.mem_cons.mp hw with h' | h'
        · exact h'
        · exact (List.eq_of_mem_replicate h')
      rw [← hwc]
      exact (Option.some.inj hv).symm
  · have hr : List.range (List.length ([10, 10, 10, 10, 10] : List ℚ)) = [0, 1, 2, 3, 4] := rfl
    simp only [calculateMovingAverages, hr, List.map]
    norm_num

/-- C8, witness at `c = 10`, `n = 5`, `k = 3`. -/
theorem constant_series_sma_ema_witness :
    ((1:ℕ) ≤ 3 ∧ (3:ℕ) ≤ 5) ∧
    calculateMovingAverages [10, 10, 10, 10, 10] 3 =
      [none, none, some 10, some 10, some 10] :=
  ⟨⟨by norm_num, by norm_num⟩,
   (constant_series_sma_ema 10 5 3 (by norm_num) (by norm_num)).2.2⟩

/-! ## C5: cluster separation -/

lemma list_sum_ge (c : ℚ) : ∀ xs : List ℚ, (∀ x ∈ xs, c ≤ x) →
    (xs.length : ℚ) * c ≤ xs.sum := by
  intro xs
  induction xs with
  | nil => simp
  | cons a as ih =>
    intro h
    have has := ih fun x hx => h x (List.mem_cons_of_mem a hx)
    have ha := h a (List.mem_cons_self a as)
    simp only [List.sum_cons, List.length_cons]
    push_cast
    nlinarith

lemma list_sum_le (c : ℚ) : ∀ xs : List ℚ, (∀ x ∈ xs, x ≤ c) →
    xs.sum ≤ (xs.length : ℚ) * c := by
  intro xs
  induction xs with
  | nil => simp
  | cons a as ih =>
    intro h
    have has := ih fun x hx => h x (List.mem_cons_of_mem a hx)
    have ha := h a (List.mem_cons_self a as)
    simp only [List.sum_cons, List.length_cons]
    push_cast
    nlinarith

lemma length_cast_pos {xs : List ℚ} (hne : xs ≠ []) : 0 < (xs.length : ℚ) := by
  exact_mod_cast List.length_pos.mpr hne

lemma le_mean_of (c : ℚ) (xs : List ℚ) (hne : xs ≠ []) (h : ∀ x ∈ xs, c ≤ x) :
    c ≤ mean xs := by
  rw [mean, le_div_iff₀ (length_cast_pos hne)]
  have := list_sum_ge c xs h
  linarith

lemma mean_le_of (c : ℚ) (xs : List ℚ) (hne : xs ≠ []) (h : ∀ x ∈ xs, x ≤ c) :
    mean xs ≤ c := by
  rw [mean, div_le_iff₀ (length_cast_pos hne)]
  have := list_sum_le c xs h
  linarith

lemma mean_pos (xs : List ℚ) (hne : xs ≠ []) (h : ∀ x ∈ xs, 0 < x) : 0 < mean xs := by
  rw [mean]
  exact div_pos (List.sum_pos xs h hne) (length_cast_pos hne)

/-- Every value `clusterLoop` emits is a mean of consumed inputs, so a lower
bound on all of them bounds every output. -/
lemma clusterLoop_le (t c : ℚ) : ∀ (rest cur : List ℚ), cur ≠ [] →
    (∀ x ∈ cur, c ≤ x) → (∀ x ∈ rest, c ≤ x) →
    ∀ y ∈ clusterLoop t cur rest, c ≤ y := by
  intro rest
  induction rest with
  | nil =>
    intro cur hne hcur _ y hy
    simp only [clusterLoop, List.mem_singleton] at hy
    exact hy ▸ le_mean_of c cur hne hcur
  | cons l rest ih =>
    intro cur hne hcur hrest y hy
    simp only [clusterLoop] at hy
    by_cases hc : (l - cur.headD 0) / cur.headD 0 < t
    · rw [if_pos hc] at hy
      refine ih (l :: cur) (by simp) ?_ (fun x hx => hrest x (by simp [hx])) y hy
      intro x hx
      rcases List.mem_cons.mp hx with rfl | hx
      · exact hrest x (by simp)
      · exact hcur x hx
    · rw [if_neg hc] at hy
      rcases List.mem_cons.mp hy with rfl | hy
      · exact le_mean_of c cur hne hcur
      · exact ih [l] (by simp) (by simp [hrest l (by simp)])
          (fun x hx => hrest x (by simp [hx])) y hy

lemma clusterLoop_pos (t : ℚ) : ∀ (rest cur : List ℚ), cur ≠ [] →
    (∀ x ∈ cur, 0 < x) → (∀ x ∈ rest, 0 < x) →
    ∀ y ∈ clusterLoop t cur rest, 0 < y := by
  intro rest
  induction rest with
  | nil =>
    intro cur hne hcur _ y hy
    simp only [clusterLoop, List.mem_singleton] at hy
    exact hy ▸ mean_pos cur hne hcur
  | cons l rest ih =>
    intro cur hne hcur hrest y hy
    simp only [clusterLoop] at hy
    by_cases hc : (l - cur.headD 0) / cur.headD 0 < t
    · rw [if_pos hc] at hy
      refine ih (l :: cur) (by simp) ?_ (fun x hx => hrest x (by simp [hx])) y hy
      intro x hx
      rcases List.mem_cons.mp hx with rfl | hx
      · exact hrest x (by simp)
      · exact hcur x hx
    · rw [if_neg hc] at hy
      rcases List.mem_cons.mp hy with rfl | hy
      · exact mean_pos cur hne hcur
      · exact ih [l] (by simp) (by simp [hrest l (by simp)])
          (fun x hx => hrest x (by simp [hx])) y hy

/-- The key invariant run of `clusterLoop` on positive sorted input: the
running cluster's most recent member (its head, in our reversed
representation) bounds the cluster from above and the remaining input from
below, and then successive emitted means grow by at least the factor
`1 + t`. -/
lemma clusterLoop_pairwise (t : ℚ) (ht : 0 < t) :
    ∀ (rest cur : List ℚ), cur ≠ [] →
    (∀ x ∈ cur, 0 < x) → (∀ x ∈ rest, 0 < x) →
    (∀ x ∈ cur, x ≤ cur.headD 0) →
    (∀ x ∈ rest, cur.headD 0 ≤ x) →
    List.Sorted (· ≤ ·) rest →
    List.Pairwise (fun a b => a * (1 + t) ≤ b) (clusterLoop t cur rest) := by
  intro rest
  induction rest with
  | nil =>
    intro cur _ _ _ _ _ _
    simp [clusterLoop]
  | cons l rest ih =>
    intro cur hne hcpos hrpos hhead hge hsorted
    have hh0 : 0 < cur.headD 0 := by
      cases cur with
      | nil => exact absurd rfl hne
      | cons a as => exact hcpos a (by simp)
    obtain ⟨hl_rest, hsorted'⟩ := List.sorted_cons.mp hsorted
    simp only [clusterLoop]
    by_cases hc : (l - cur.headD 0) / cur.headD 0 < t
    · rw [if_pos hc]
      refine ih (l :: cur) (by simp) ?_ (fun x hx => hrpos x (by simp [hx])) ?_ ?_ hsorted'
      · intro x hx
        rcases List.mem_cons.mp hx with rfl | hx
        · exact hrpos x (by simp)
        · exact hcpos x hx
      · intro x hx
        rcases List.mem_cons.mp hx with rfl | hx
        · simp
        · simp only [List.headD_cons]
          exact le_trans (hhead x hx) (hge l (by simp))
      · intro x hx
        simp only [List.headD_cons]
        exact hl_rest x hx
    · rw [if_neg hc]
      have hlge : cur.headD 0 * (1 + t) ≤ l := by
        have h1 : t ≤ (l - cur.headD 0) / cur.headD 0 := le_of_not_lt hc
        rw [le_div_iff₀ hh0] at h1
        nlinarith
      have hmean_le : mean cur ≤ cur.headD 0 := mean_le_of _ _ hne hhead
      have hmean_pos : 0 < mean cur := mean_pos _ hne hcpos
      refine List.pairwise_cons.mpr ⟨?_, ?_⟩
      · intro y hy
        have hly : l ≤ y :=
          clusterLoop_le t l rest [l] (by simp) (by simp) hl_rest y hy
        nlinarith
      · exact ih [l] (by simp) (by simp [hrpos l (by simp)])
          (fun x hx => hrpos x (by simp [hx])) (by simp)
          (by simpa using hl_rest) hsorted'

/-- Two members of a `Pairwise` list are equal or related one way or the
other. -/
lemma pairwise_both {R : ℚ → ℚ → Prop} (l : List ℚ) (hp : l.Pairwise R) :
    ∀ a ∈ l, ∀ b ∈ l, a = b ∨ R a b ∨ R b a := by
  induction hp with
  | nil => intro a ha; simp at ha
  | cons hx _ ih =>
    intro a ha b hb
    rcases List.mem_cons.mp ha with rfl | ha' <;> rcases List.mem_cons.mp hb with rfl | hb'
    · exact Or.inl rfl
    · exact Or.inr (Or.inl (hx b hb'))
    · exact Or.inr (Or.inr (hx a ha'))
    · exact ih a ha' b hb'

/-- C5, amended.  For positive extrema and a positive threshold, any two
distinct output levels of `clusterLevels` are at least the threshold apart
relative to the lower level. -/
theorem clusterLevels_separation (levels : List ℚ) (t : ℚ) (ht : 0 < t)
    (hpos : ∀ x ∈ levels, 0 < x) :
    ∀ a ∈ clusterLevels levels t, ∀ b ∈ clusterLevels levels t,
      a < b → t ≤ (b - a) / a := by
  have hperm := List.perm_insertionSort (· ≤ ·) levels
  have hsorted := List.sorted_insertionSort (· ≤ ·) levels
  have hmempos : ∀ x ∈ List.insertionSort (· ≤ ·) levels, 0 < x := fun x hx =>
    hpos x (hperm.mem_iff.mp hx)
  intro a ha b hb hab
  rcases hs : List.insertionSort (· ≤ ·) levels with _ | ⟨l, rest⟩
  · rw [clusterLevels, hs] at ha
    simp at ha
  · rw [clusterLevels, hs] at ha hb
    rw [hs] at hsorted hmempos
    obtain ⟨hl_rest, hsorted'⟩ := List.sorted_cons.mp hsorted
    have hPW : (clusterLoop t [l] rest).Pairwise (fun x y => x * (1 + t) ≤ y) :=
      clusterLoop_pairwise t ht rest [l] (by simp)
        (by simp [hmempos l (by simp)]) (fun x hx => hmempos x (by simp [hx]))
        (by simp) (by simpa using hl_rest) hsorted'
    have hout_pos : ∀ y ∈ clusterLoop t [l] rest, 0 < y :=
      clusterLoop_pos t rest [l] (by simp) (by simp [hmempos l (by simp)])
        (fun x hx => hmempos x (by simp [hx]))
    rcases pairwise_both _ hPW a ha b hb with h | h | h
    · exact absurd h (ne_of_lt hab)
    · have ha0 : 0 < a := hout_pos a ha
      rw [le_div_iff₀ ha0]
      nlinarith
    · have hb0 : 0 < b := hout_pos b hb
      have ha0 : 0 < a := hout_pos a ha
      nlinarith

/-- C5, witness: two well-separated levels survive clustering and satisfy the
separation bound. -/
theorem clusterLevels_separation_witness :
    ((0:ℚ) < 1/100) ∧ (∀ x ∈ [(100:ℚ), 200], (0:ℚ) < x) ∧
    (∀ a ∈ clusterLevels [(100:ℚ), 200] (1/100), ∀ b ∈ clusterLevels [(100:ℚ), 200] (1/100),
      a < b → (1/100 : ℚ) ≤ (b - a) / a) :=
  ⟨by norm_num, by intro x hx; fin_cases hx <;> norm_num,
   clusterLevels_separation [100, 200] (1/100) (by norm_num)
     (by intro x hx; fin_cases hx <;> norm_num)⟩

/-- C5, counterexample to the claim as stated: with a negative extremum in
the input (`[-100, 1, 2]`, default 1% threshold), the first cluster absorbs
both `-100` and `1` (their relative distance is negative) and collapses to
`-99/2`, and the two output levels `-99/2 < 2` fail the relative-separation
bound. -/
theorem clusterLevels_separation_cex :
    clusterLevels [-100, 1, 2] (1/100) = [-99/2, 2] ∧
    ((-99/2 : ℚ) < 2) ∧ ¬ ((1/100 : ℚ) ≤ (2 - (-99/2)) / (-99/2)) := by
  refine ⟨?_, by norm_num, by norm_num⟩
  have hs : List.insertionSort (· ≤ ·) [(-100 : ℚ), 1, 2] = [-100, 1, 2] := by
    norm_num [List.insertionSort, List.orderedInsert]
  simp only [clusterLevels, hs]
  norm_num [clusterLoop, mean]

/-! ## C6: RSI bounds and the RSI = 100 characterisation -/

lemma gainsOf_nonneg (deltas : List ℚ) : ∀ g ∈ gainsOf deltas, 0 ≤ g := by
  intro g hg
  simp only [gainsOf, List.mem_map] at hg
  obtain ⟨d, -, rfl⟩ := hg
  split_ifs with h
  · exact le_of_lt h
  · exact le_refl 0

lemma lossesOf_nonneg (deltas : List ℚ) : ∀ l ∈ lossesOf deltas, 0 ≤ l := by
  intro l hl
  simp only [lossesOf, List.mem_map] at hl
  obtain ⟨d, -, rfl⟩ := hl
  split_ifs with h
  · exact abs_nonneg d
  · exact le_refl 0

/-- A per-delta loss vanishes exactly when the delta is a non-loss. -/
lemma loss_eq_zero_iff (d : ℚ) : (if d < 0 then |d| else 0) = 0 ↔ 0 ≤ d := by
  split_ifs with h
  · exact iff_of_false (abs_pos.mpr (ne_of_lt h)).ne' (not_le.mpr h)
  · exact iff_of_true rfl (le_of_not_lt h)

lemma rsiValue_bounds (ag al : ℚ) (hag : 0 ≤ ag) (hal : 0 ≤ al) :
    0 ≤ rsiValue ag al ∧ rsiValue ag al ≤ 100 := by
  rw [rsiValue]
  split_ifs with h
  · norm_num
  · have hal' : 0 < al := lt_of_le_of_ne hal (Ne.symm h)
    have hrs : 0 ≤ ag / al := div_nonneg hag hal'.le
    constructor
    · have h2 : 100 / (1 + ag / al) ≤ 100 := div_le_self (by norm_num) (by linarith)
      linarith
    · have h3 : 0 ≤ 100 / (1 + ag / al) := by positivity
      linarith

lemma rsiValue_eq_100_iff (ag al : ℚ) (hag : 0 ≤ ag) (hal : 0 ≤ al) :
    rsiValue ag al = 100 ↔ al = 0 := by
  rw [rsiValue]
  split_ifs with h
  · simp [h]
  · have hal' : 0 < al := lt_of_le_of_ne hal (Ne.symm h)
    have hrs : 0 ≤ ag / al := div_nonneg hag hal'.le
    refine iff_of_false (fun h100 => ?_) h
    have hz : 100 / (1 + ag / al) = 0 := by linarith
    rw [div_eq_zero_iff] at hz
    rcases hz with h' | h' <;> linarith

/-- One Wilder-smoothing step keeps the running average non-negative. -/
lemma wilder_step_nonneg (p : ℕ) (hp : 1 ≤ p) (avg x : ℚ) (havg : 0 ≤ avg)
    (hx : 0 ≤ x) : 0 ≤ (avg * ((p : ℚ) - 1) + x) / (p : ℚ) := by
  have hp' : (1:ℚ) ≤ p := by exact_mod_cast hp
  apply div_nonneg
  · nlinarith
  · linarith

/-- One Wilder-smoothing step vanishes exactly when both its inputs do
(the smoothing never forgets a loss while `p ≥ 2`). -/
lemma wilder_step_eq_zero_iff (p : ℕ) (hp : 2 ≤ p) (al l : ℚ) (hal : 0 ≤ al)
    (hl : 0 ≤ l) : (al * ((p : ℚ) - 1) + l) / (p : ℚ) = 0 ↔ al = 0 ∧ l = 0 := by
  have hp' : (2:ℚ) ≤ p := by exact_mod_cast hp
  rw [div_eq_zero_iff]
  constructor
  · rintro (h | h)
    · constructor <;> nlinarith
    · rw [h] at hp'; linarith
  · rintro ⟨h1, h2⟩
    left
    rw [h1, h2]
    ring

lemma wilderRSI_bounds (p : ℕ) (hp : 1 ≤ p) :
    ∀ (pairs : List (ℚ × ℚ)) (ag al : ℚ), 0 ≤ ag → 0 ≤ al →
    (∀ gl ∈ pairs, 0 ≤ gl.1 ∧ 0 ≤ gl.2) →
    ∀ o ∈ wilderRSI p ag al pairs, ∀ v, o = some v → 0 ≤ v ∧ v ≤ 100 := by
  intro pairs
  induction pairs with
  | nil =>
    intro ag al _ _ _ o ho
    simp [wilderRSI] at ho
  | cons gl rest ih =>
    intro ag al hag hal hpairs o ho v hv
    have hgl := hpairs gl (by simp)
    have hag' := wilder_step_nonneg p hp ag gl.1 hag hgl.1
    have hal' := wilder_step_nonneg p hp al gl.2 hal hgl.2
    simp only [wilderRSI, List.mem_cons] at ho
    rcases ho with rfl | ho
    · obtain rfl := Option.some.inj hv
      exact rsiValue_bounds _ _ hag' hal'
    · exact ih _ _ hag' hal' (fun x hx => hpairs x (by simp [hx])) o ho v hv

/-- Along the Wilder loop, a reading of 100 at position `j` says exactly that
the incoming average loss was zero and the first `j + 1` consumed losses are
zero. -/
lemma wilderRSI_100_iff (p : ℕ) (hp : 2 ≤ p) :
    ∀ (pairs : List (ℚ × ℚ)) (ag al : ℚ), 0 ≤ ag → 0 ≤ al →
    (∀ gl ∈ pairs, 0 ≤ gl.1 ∧ 0 ≤ gl.2) →
    ∀ j v, (wilderRSI p ag al pairs)[j]? = some (some v) →
      (v = 100 ↔ (al = 0 ∧ ∀ gl ∈ pairs.take (j + 1), gl.2 = 0)) := by
  intro pairs
  induction pairs with
  | nil =>
    intro ag al _ _ _ j v h
    simp [wilderRSI] at h
  | cons gl rest ih =>
    intro ag al hag hal hpairs j v h
    have hgl := hpairs gl (by simp)
    have hp1 : 1 ≤ p := by omega
    have hag' := wilder_step_nonneg p hp1 ag gl.1 hag hgl.1
    have hal' := wilder_step_nonneg p hp1 al gl.2 hal hgl.2
    simp only [wilderRSI] at h
    cases j with
    | zero =>
      rw [List.getElem?_cons_zero] at h
      obtain hv := Option.some.inj (Option.some.inj h)
      rw [← hv, rsiValue_eq_100_iff _ _ hag' hal',
        wilder_step_eq_zero_iff p hp al gl.2 hal hgl.2]
      simp
    | succ j' =>
      rw [List.getElem?_cons_succ] at h
      rw [ih _ _ hag' hal' (fun x hx => hpairs x (by simp [hx])) j' v h,
        wilder_step_eq_zero_iff p hp al gl.2 hal hgl.2, List.take_succ_cons]
      simp only [List.mem_cons, forall_eq_or_imp]
      tauto

/-- All non-negative entries sum to zero exactly when each entry is zero. -/
lemma sum_eq_zero_iff_of_nonneg : ∀ xs : List ℚ, (∀ x ∈ xs, 0 ≤ x) →
    (xs.sum = 0 ↔ ∀ x ∈ xs, x = 0) := by
  intro xs
  induction xs with
  | nil => simp
  | cons a as ih =>
    intro h
    have ha := h a (by simp)
    have hs : 0 ≤ as.sum := List.sum_nonneg fun x hx => h x (by simp [hx])
    simp only [List.sum_cons, List.mem_cons, forall_eq_or_imp]
    rw [← ih fun x hx => h x (by simp [hx])]
    constructor
    · intro h0
      constructor <;> linarith
    · rintro ⟨h1, h2⟩
      rw [h1, h2, add_zero]

/-- The first `k` per-delta losses vanish exactly when the first `k` deltas
are non-losses. -/
lemma losses_take_zero_iff (deltas : List ℚ) (k : ℕ) :
    (∀ l ∈ (lossesOf deltas).take k, l = 0) ↔ ∀ d ∈ deltas.take k, 0 ≤ d := by
  rw [lossesOf, ← List.map_take]
  simp only [List.mem_map]
  constructor
  · intro h d hd
    exact (loss_eq_zero_iff d).mp (h _ ⟨d, hd, rfl⟩)
  · rintro h l ⟨d, hd, rfl⟩
    exact (loss_eq_zero_iff d).mpr (h d hd)

/-- The gain/loss pairing the RSI loop consumes is a single map over the
deltas. -/
lemma zip_gains_losses (deltas : List ℚ) (p : ℕ) :
    ((gainsOf deltas).drop p).zip ((lossesOf deltas).drop p) =
    (deltas.drop p).map fun d =>
      ((if d > 0 then d else 0 : ℚ), (if d < 0 then |d| else 0 : ℚ)) := by
  rw [gainsOf, lossesOf, ← List.map_drop, ← List.map_drop, List.zip_map']

lemma pairs_take_snd_zero_iff (deltas : List ℚ) (p k : ℕ) :
    (∀ gl ∈ (((gainsOf deltas).drop p).zip ((lossesOf deltas).drop p)).take k,
      gl.2 = 0) ↔ ∀ d ∈ (deltas.drop p).take k, 0 ≤ d := by
  rw [zip_gains_losses, ← List.map_take]
  simp only [List.mem_map]
  constructor
  · intro h d hd
    exact (loss_eq_zero_iff d).mp (h _ ⟨d, hd, rfl⟩)
  · rintro h gl ⟨d, hd, rfl⟩
    exact (loss_eq_zero_iff d).mpr (h d hd)

/-- Splitting a window of `p + k` deltas into the seed window and the tail
the Wilder loop consumes. -/
lemma take_add_all_iff (l : List ℚ) (p k : ℕ) :
    ((∀ d ∈ l.take p, 0 ≤ d) ∧ ∀ d ∈ (l.drop p).take k, 0 ≤ d) ↔
    ∀ d ∈ l.take (p + k), 0 ≤ d := by
  rw [List.take_add, List.forall_mem_append]

/-- C6.  Every defined RSI reading lies in `[0, 100]`, and a defined reading
at output position `j + 1` equals 100 exactly when no delta it was computed
over (the first `period + j` deltas — Wilder smoothing with `period ≥ 2`
never forgets a loss) is negative. -/
theorem calculateRSI_range_and_100_iff (prices : List ℚ) (period : ℕ)
    (hp : 2 ≤ period) :
    (∀ o ∈ calculateRSI prices period, ∀ v, o = some v → 0 ≤ v ∧ v ≤ 100) ∧
    (∀ j v, (calculateRSI prices period)[j + 1]? = some (some v) →
      (v = 100 ↔ ∀ d ∈ (priceDeltas prices).take (period + j), 0 ≤ d)) := by
  have hp1 : 1 ≤ period := by omega
  have hpQ : (0:ℚ) < (period:ℚ) := by exact_mod_cast (by omega : 0 < period)
  by_cases hlen : prices.length < period + 1
  · constructor
    · intro o ho v hv
      simp only [calculateRSI] at ho
      rw [if_pos hlen] at ho
      rw [List.eq_of_mem_replicate ho] at hv
      simp at hv
    · intro j v h
      simp only [calculateRSI] at h
      rw [if_pos hlen, List.getElem?_replicate] at h
      split_ifs at h <;> simp at h
  · have hAGnn : 0 ≤ ((gainsOf (priceDeltas prices)).take period).sum / (period:ℚ) :=
      div_nonneg (List.sum_nonneg fun x hx =>
        gainsOf_nonneg _ x (List.take_subset _ _ hx)) hpQ.le
    have hALnn : 0 ≤ ((lossesOf (priceDeltas prices)).take period).sum / (period:ℚ) :=
      div_nonneg (List.sum_nonneg fun x hx =>
        lossesOf_nonneg _ x (List.take_subset _ _ hx)) hpQ.le
    have hpairs : ∀ gl ∈ ((gainsOf (priceDeltas prices)).drop period).zip
        ((lossesOf (priceDeltas prices)).drop period), 0 ≤ gl.1 ∧ 0 ≤ gl.2 := by
      rintro ⟨g, l⟩ hgl
      obtain ⟨hg, hl⟩ := List.of_mem_zip hgl
      exact ⟨gainsOf_nonneg _ g (List.drop_subset _ _ hg),
        lossesOf_nonneg _ l (List.drop_subset _ _ hl)⟩
    have hAL_iff : (((lossesOf (priceDeltas prices)).take period).sum / (period:ℚ) = 0) ↔
        ∀ d ∈ (priceDeltas prices).take period, 0 ≤ d := by
      rw [div_eq_zero_iff]
      constructor
      · rintro (h0 | h0)
        · exact (losses_take_zero_iff _ _).mp
            ((sum_eq_zero_iff_of_nonneg _ fun x hx =>
              lossesOf_nonneg _ x (List.take_subset _ _ hx)).mp h0)
        · exact absurd h0 hpQ.ne'
      · intro h0
        exact Or.inl ((sum_eq_zero_iff_of_nonneg _ fun x hx =>
          lossesOf_nonneg _ x (List.take_subset _ _ hx)).mpr
          ((losses_take_zero_iff _ _).mpr h0))
    constructor
    · intro o ho v hv
      simp only [calculateRSI] at ho
      rw [if_neg hlen] at ho
      simp only [List.mem_cons] at ho
      rcases ho with rfl | rfl | ho
      · simp at hv
      · obtain rfl := Option.some.inj hv
        exact rsiValue_bounds _ _ hAGnn hALnn
      · exact wilderRSI_bounds period hp1 _ _ _ hAGnn hALnn hpairs o ho v hv
    · intro j v h
      simp only [calculateRSI] at h
      rw [if_neg hlen, List.getElem?_cons_succ] at h
      cases j with
      | zero =>
        rw [List.getElem?_cons_zero] at h
        obtain hv := Option.some.inj (Option.some.inj h)
        rw [← hv, rsiValue_eq_100_iff _ _ hAGnn hALnn, hAL_iff]
        simp
      | succ j' =>
        rw [List.getElem?_cons_succ] at h
        rw [wilderRSI_100_iff period hp _ _ _ hAGnn hALnn hpairs j' v h,
          hAL_iff, pairs_take_snd_zero_iff, take_add_all_iff]

/-- C6, witness: for `[1, 2, 3, 4]` with period 2 the reading at output
position 1 is defined and the characterisation holds there. -/
theorem calculateRSI_range_and_100_iff_witness :
    ((2:ℕ) ≤ 2) ∧
    ((100:ℚ) = 100 ↔ ∀ d ∈ (priceDeltas [(1:ℚ), 2, 3, 4]).take (2 + 0), 0 ≤ d) :=
  ⟨by norm_num,
   (calculateRSI_range_and_100_iff [1, 2, 3, 4] 2 (by norm_num)).2 0 100 (by
     have hc : calculateRSI [(1:ℚ), 2, 3, 4] 2 = [none, some 100, some 100] := by
       norm_num [calculateRSI, priceDeltas, gainsOf, lossesOf, wilderRSI, rsiValue,
         List.zipWith]
     rw [hc]
     rfl)⟩

end TradingBot
